import Mathlib

/-!
Verification of the image-processor pipeline (`src/img-processor.py`).

The Python source is shallowly embedded below.  Raw byte strings become
`Bytes` (lists of naturals).  PIL images are modelled symbolically: the
repository's code never inspects pixel data, it only chains the PIL
primitives `open`/`convert`/`resize`/`putalpha`/`paste` and reads back
`size`/`mode`, so an image is a term recording the primitive calls that
built it, together with the dimension/mode bookkeeping PIL guarantees.
The two genuinely external effects — decoding bytes into an image
(`Image.open`, which can fail) and serialising an image at a quality
level (`Image.save`) — are parameters (`Decoder`, `Encoder`) of every
embedded function, since the repository treats them as opaque.

Python string operations (`str.lower`, `str.upper`, `str.endswith`,
`str.split`, `os.path.split`, `os.path.join`, `str.rsplit`) are embedded
as executable helpers over the character list of a Lean `String`; on the
ASCII names involved they agree with Python's semantics.

Python's float arithmetic in the watermark-scaling formula is idealised
as exact arithmetic: `int((target_area * aspect) ** 0.5)` is the floor
of a real square root of a rational, computed below by `Nat.sqrt`, and
`int(logo_width / logo_aspect)` is a floor of a rational, computed by
natural division.  Python's floor division `//` on integers is `Int`
division (Euclidean division, which coincides with floor division for
the positive divisors used here).
-/

/-- Raw byte strings (file contents, serialised images). -/
abbrev Bytes := List Nat

/-- Python `str.lower`, embedded over the character list. -/
def lowerStr (s : String) : String := ⟨s.data.map Char.toLower⟩

/-- Python `str.upper`, embedded over the character list. -/
def upperStr (s : String) : String := ⟨s.data.map Char.toUpper⟩

/-- Python `str.endswith`, embedded over the character list. -/
def endsWithStr (s suffix : String) : Bool := suffix.data.isSuffixOf s.data

/-- Split a character list at every occurrence of `c` (Python `str.split(c)`). -/
def splitCharAux (c : Char) : List Char → List (List Char)
  | [] => [[]]
  | a :: rest =>
    let r := splitCharAux c rest
    if a = c then [] :: r
    else
      match r with
      | [] => [[a]]
      | g :: gs => (a :: g) :: gs

/-- Python `str.split(c)` for a one-character separator. -/
def splitChar (c : Char) (s : String) : List String :=
  (splitCharAux c s.data).map fun l => ⟨l⟩

/-- Join strings with a separator (used to rebuild the pieces of a split). -/
def joinWith (sep : String) (l : List String) : String :=
  match l with
  | [] => ""
  | a :: rest => rest.foldl (fun acc s => acc ++ sep ++ s) a

/-- Symbolic PIL image: a term recording the chain of PIL primitive calls
that produced the buffer, as issued by the repository's code.
`decoded src w h mode` is the result of `Image.open` on bytes `src` (the
decoder reported size `(w, h)` and mode `mode`); the remaining
constructors are `convert`, `resize`, `putalpha` with an opacity-scaled
alpha band, and `paste` of a logo at an offset. -/
inductive Img where
  | decoded (src : Bytes) (w h : Nat) (mode : String)
  | convert (i : Img) (mode : String)
  | resize (i : Img) (w h : Nat)
  | alphaScaled (i : Img) (opacityVal : ℚ)
  | pasted (base : Img) (logo : Img) (x y : Int)
deriving DecidableEq

/-- Width reported by PIL (`img.size[0]`) for each primitive. -/
def Img.width : Img → Nat
  | .decoded _ w _ _ => w
  | .convert i _ => i.width
  | .resize _ w _ => w
  | .alphaScaled i _ => i.width
  | .pasted base _ _ _ => base.width

/-- Height reported by PIL (`img.size[1]`) for each primitive. -/
def Img.height : Img → Nat
  | .decoded _ _ h _ => h
  | .convert i _ => i.height
  | .resize _ _ h => h
  | .alphaScaled i _ => i.height
  | .pasted base _ _ _ => base.height

/-- Color mode reported by PIL (`img.mode`) for each primitive:
`convert` installs its argument, `resize` and alpha scaling keep the
mode, and an in-place `paste` keeps the base image's mode. -/
def Img.mode : Img → String
  | .decoded _ _ _ m => m
  | .convert _ m => m
  | .resize i _ _ => i.mode
  | .alphaScaled i _ => i.mode
  | .pasted base _ _ _ => base.mode

/-- The decoding side of PIL `Image.open`: given raw bytes, either the
decoded image's (width, height, mode) or `none` when the bytes are not a
supported raster format (PIL raises, a `DecodeError` in the spec's
taxonomy). -/
abbrev Decoder := Bytes → Option (Nat × Nat × String)

/-- PIL `img.save(buffer, format=fmt, quality=q)`: the serialised bytes
of an image at a given format and quality. -/
abbrev Encoder := Img → String → Nat → Bytes

/-- Lines 13–14 of `resize_and_compress_to_buffer`:
`fmt = image_format.upper()`, and the three-letter abbreviation `JPG`
is mapped to the canonical PIL name `JPEG`. -/
def normalize_format (image_format : String) : String :=
  let fmt := upperStr image_format
  if fmt = "JPG" then "JPEG" else fmt

/-- Lines 16–17 of `resize_and_compress_to_buffer`: a JPEG target cannot
carry an alpha channel, so an RGBA buffer is flattened to RGB before
encoding; every other case leaves the buffer untouched. -/
def flatten_for_format (fmt : String) (img : Img) : Img :=
  if fmt = "JPEG" ∧ img.mode = "RGBA" then Img.convert img "RGB" else img

/-- The `while True` loop of `resize_and_compress_to_buffer`
(lines 19–25): serialise at the current quality; return the buffer when
its size is within `target_bytes` or the quality has reached 10,
otherwise retry at quality − 5. -/
def compress_loop (encode : Encoder) (img : Img) (fmt : String)
    (target_bytes : Nat) (quality : Nat) : Bytes :=
  if h : (encode img fmt quality).length ≤ target_bytes ∨ quality ≤ 10 then
    encode img fmt quality
  else
    compress_loop encode img fmt target_bytes (quality - 5)
termination_by quality
decreasing_by push_neg at h; omega

/-- `resize_and_compress_to_buffer(img, target_size_kb, image_format)`
(lines 10–25): normalise the format name, flatten for JPEG, then run the
quality-descent loop starting at quality 95 with the byte ceiling
`target_size_kb * 1024`. -/
def resize_and_compress_to_buffer (encode : Encoder) (img : Img)
    (target_size_kb : Nat) (image_format : String) : Bytes :=
  compress_loop encode (flatten_for_format (normalize_format image_format) img)
    (normalize_format image_format) (target_size_kb * 1024) 95

/-- The fixed descending quality ladder tried by the encoder. -/
def qualityLadder : List Nat :=
  [95, 90, 85, 80, 75, 70, 65, 60, 55, 50, 45, 40, 35, 30, 25, 20, 15, 10]

/-- Lines 31–34 of `apply_logo`: the scaled watermark width
`logo_width = int((target_area * logo_aspect) ** 0.5)` with
`target_area = base_area * 0.6` and `logo_aspect = lw0 / lh0`, idealised
over exact arithmetic.  The quantity under the root is the rational
`(3 * base_area * lw0) / (5 * lh0)`, and for naturals `a`, `b > 0` the
floor of `√(a / b)` equals `Nat.sqrt (a * b) / b` (proved below against
the spec-side real formula), here with `a = 3 * base_area * lw0` and
`b = 5 * lh0`. -/
def logo_scaled_width (base_img : Img) (lw0 lh0 : Nat) : Nat :=
  Nat.sqrt (3 * (base_img.width * base_img.height) * lw0 * (5 * lh0)) / (5 * lh0)

/-- Line 35 of `apply_logo`: `logo_height = int(logo_width / logo_aspect)`,
which is `logo_width * lh0 / lw0` in exact arithmetic. -/
def logo_scaled_height (base_img : Img) (lw0 lh0 : Nat) : Nat :=
  logo_scaled_width base_img lw0 lh0 * lh0 / lw0

/-- `apply_logo(base_img, logo_bytes, opacity)` (lines 27–47).  A missing
watermark returns the base unchanged.  Otherwise the watermark is
decoded (failure is swallowed by the `except` and returns the base
unchanged, as is the `ZeroDivisionError` raised by the aspect-ratio
arithmetic when a reported dimension is zero), converted to RGBA, scaled
to cover 60% of the base area at its own aspect ratio, alpha-scaled by
the clamped opacity fraction, and pasted centred onto the base.
Python's `//` on the `base - logo` differences is `Int` floor division
(Euclidean division, identical for the positive divisor 2). -/
def apply_logo (decode : Decoder) (base_img : Img) (logo_bytes : Option Bytes)
    (opacity : ℚ) : Img :=
  match logo_bytes with
  | none => base_img
  | some lb =>
    match decode lb with
    | none => base_img
    | some (lw0, lh0, lmode) =>
      if lw0 = 0 ∨ lh0 = 0 then base_img
      else
        let logo_img := Img.convert (Img.decoded lb lw0 lh0 lmode) "RGBA"
        let logo_width := logo_scaled_width base_img lw0 lh0
        let logo_height := logo_scaled_height base_img lw0 lh0
        let logo_img := Img.resize logo_img logo_width logo_height
        let opacity_val := min (max (opacity / 100) 0) 1
        let logo_img := Img.alphaScaled logo_img opacity_val
        let x := ((base_img.width : Int) - (logo_width : Int)) / 2
        let y := ((base_img.height : Int) - (logo_height : Int)) / 2
        Img.pasted base_img logo_img x y

/-- Lines 50–52 of `process_single_image`: decode the input bytes
(`Image.open`, propagating failure), convert to RGBA, resize to the
target geometry with the LANCZOS filter. -/
def normalized_image (decode : Decoder) (file_bytes : Bytes)
    (width height : Nat) : Option Img :=
  (decode file_bytes).map fun whm =>
    Img.resize (Img.convert (Img.decoded file_bytes whm.1 whm.2.1 whm.2.2) "RGBA")
      width height

/-- Lines 50–56 of `process_single_image`: the normalised buffer with the
optional watermark applied (`apply_logo` already returns the base
unchanged when no watermark is supplied). -/
def pipeline_image (decode : Decoder) (file_bytes : Bytes) (width height : Nat)
    (logo_bytes : Option Bytes) (opacity : ℚ) : Option Img :=
  (normalized_image decode file_bytes width height).map fun img =>
    apply_logo decode img logo_bytes opacity

/-- `process_single_image` (lines 49–60): decode, normalise, watermark,
then size-constrained encode; returns the encoded buffer together with
`final_fmt = image_format.lower()`.  `none` models the `DecodeError`
propagating out of `Image.open`. -/
def process_single_image (decode : Decoder) (encode : Encoder)
    (file_bytes : Bytes) (width height : Nat) (logo_bytes : Option Bytes)
    (opacity : ℚ) (target_size_kb : Nat) (image_format : String) :
    Option (Bytes × String) :=
  (pipeline_image decode file_bytes width height logo_bytes opacity).map fun img =>
    (resize_and_compress_to_buffer encode img target_size_kb (lowerStr image_format),
      lowerStr image_format)

/-- Line 119 of the single-mode block: the content type is derived from
the returned format string, with `jpg` special-cased to `image/jpeg`. -/
def mime_type (final_fmt : String) : String :=
  if final_fmt ≠ "jpg" then "image/" ++ final_fmt else "image/jpeg"

/-- The extension filter of `extract_files_from_archive` (lines 74, 84):
a name qualifies when its lower-cased form ends in one of the four
recognised image extensions. -/
def is_image_name (name : String) : Bool :=
  endsWithStr (lowerStr name) ".png" || endsWithStr (lowerStr name) ".jpg" ||
    endsWithStr (lowerStr name) ".jpeg" || endsWithStr (lowerStr name) ".webp"

/-- An uploaded archive: its declared file name and, when the byte
stream parses as the declared container kind, the container's entry list
(entry name, entry bytes) in native iteration order.  `zipfile` and
`py7zr` both present exactly such a listing to the repository's code. -/
structure UploadedArchive where
  name : String
  entries : List (String × Bytes)
deriving DecidableEq

/-- `extract_files_from_archive` (lines 63–85): dispatch on the
lower-cased declared name.  A `.zip` name iterates `namelist()` and
yields every image-named entry; a `.7z` name reads all entries
(`readall`, skipped entirely when it reports no files) and yields every
image-named entry; any other name matches neither branch and the
generator yields nothing. -/
def extract_files_from_archive (uploaded_archive : UploadedArchive) :
    List (String × Bytes) :=
  let filename := lowerStr uploaded_archive.name
  if endsWithStr filename ".zip" then
    uploaded_archive.entries.filter fun e => is_image_name e.1
  else if endsWithStr filename ".7z" then
    if uploaded_archive.entries.isEmpty then []
    else uploaded_archive.entries.filter fun e => is_image_name e.1
  else []

/-- Lines 158–161 of the batch loop: `os.path.split` the entry name,
strip the base name's last extension (`rsplit('.', 1)[0]`), append the
new format extension, and re-join with the original directory path. -/
def output_entry_name (filename : String) (final_fmt : String) : String :=
  let parts := splitChar '/' filename
  let original_path := joinWith "/" parts.dropLast
  let original_name := parts.getLastD ""
  let name_pieces := splitChar '.' original_name
  let name_no_ext :=
    if name_pieces.length = 1 then original_name
    else joinWith "." name_pieces.dropLast
  let new_filename := name_no_ext ++ "." ++ final_fmt
  if original_path = "" then new_filename else original_path ++ "/" ++ new_filename

/-- One iteration of the batch loop (lines 153–166): run the single-image
pipeline on the entry's bytes; on success the output archive receives the
re-extended name with the encoded bytes, on failure (`except`) the entry
produces nothing. -/
def process_entry (decode : Decoder) (encode : Encoder) (width height : Nat)
    (logo_bytes : Option Bytes) (opacity : ℚ) (target_size_kb : Nat)
    (image_format : String) (e : String × Bytes) : Option (String × Bytes) :=
  (process_single_image decode encode e.2 width height logo_bytes opacity
      target_size_kb image_format).map fun r =>
    (output_entry_name e.1 r.2, r.1)

/-- Whether a batch entry fails (its processing raises and the `except`
branch records a skip). -/
def entry_fails (decode : Decoder) (encode : Encoder) (width height : Nat)
    (logo_bytes : Option Bytes) (opacity : ℚ) (target_size_kb : Nat)
    (image_format : String) (e : String × Bytes) : Bool :=
  (process_single_image decode encode e.2 width height logo_bytes opacity
      target_size_kb image_format).isNone

/-- Observable outcome of the batch block (lines 133–179): whether the
empty-input warning fired, the entries written into the output zip
(in loop order), the names of skipped entries (in loop order), and
whether the final success message and the download of the sealed output
zip buffer were presented. -/
structure BatchResult where
  warnedEmpty : Bool
  outputEntries : List (String × Bytes)
  skipped : List String
  successShown : Bool
  downloadOffered : Bool
deriving DecidableEq

/-- The batch block (lines 133–179) on a successfully-opened archive:
the output zip is opened, the extractor's sequence is materialised into
a work list, and either the empty-input warning fires (the loop is
skipped) or every entry is processed with per-entry failure isolation.
In both cases control reaches lines 170–179: the `with` block seals the
output zip buffer, the success message is shown, and the buffer is
offered for download. -/
def runBatch (decode : Decoder) (encode : Encoder) (width height : Nat)
    (logo_bytes : Option Bytes) (opacity : ℚ) (target_size_kb : Nat)
    (image_format : String) (uploaded_archive : UploadedArchive) : BatchResult :=
  let files_to_process := extract_files_from_archive uploaded_archive
  let total_files := files_to_process.length
  if total_files = 0 then
    { warnedEmpty := true, outputEntries := [], skipped := [],
      successShown := true, downloadOffered := true }
  else
    { warnedEmpty := false,
      outputEntries := files_to_process.filterMap
        (process_entry decode encode width height logo_bytes opacity
          target_size_kb image_format),
      skipped := (files_to_process.filter
        (entry_fails decode encode width height logo_bytes opacity
          target_size_kb image_format)).map Prod.fst,
      successShown := true, downloadOffered := true }

/-- Spec-side rendering of the watermark width formula, literally as the
spec states it: `width = sqrt(area × aspect)` rounded down, over the
reals, where `area` is 60% of the base pixel area and `aspect` the
watermark's original aspect ratio. -/
noncomputable def spec_logo_width (base_area lw0 lh0 : Nat) : Nat :=
  ⌊Real.sqrt (((0.6 : ℝ) * base_area) * ((lw0 : ℝ) / (lh0 : ℝ)))⌋₊

/-- Spec-side rendering of the watermark height formula, literally as the
spec states it: `height = width / aspect` rounded down, over the reals. -/
noncomputable def spec_logo_height (logo_width lw0 lh0 : Nat) : Nat :=
  ⌊(logo_width : ℝ) / ((lw0 : ℝ) / (lh0 : ℝ))⌋₊

/-- Test decoder that rejects every byte string (every input is corrupt). -/
def decodeNone : Decoder := fun _ => none

/-- Test decoder that accepts every byte string as a 1×1 RGB image. -/
def decodeAll : Decoder := fun _ => some (1, 1, "RGB")

/-- Test decoder that rejects exactly the byte string `[0]`. -/
def decodeBut0 : Decoder := fun b => if b = [0] then none else some (1, 1, "RGB")

/-- Test encoder whose serialisations are always empty (size 0). -/
def encodeEmpty : Encoder := fun _ _ _ => []

/-- Concrete archive with two good entries and one corrupt entry. -/
def archMixed : UploadedArchive :=
  { name := "batch.zip",
    entries := [("a.png", [1]), ("bad.png", [0]), ("c.png", [2])] }

/-- Concrete archive whose container holds no image entries. -/
def archEmpty : UploadedArchive := { name := "empty.zip", entries := [] }

/-- Test decoder that reports every byte string as a 2×1 RGBA image
(used as a concrete watermark decoder). -/
def decodeLogo21 : Decoder := fun _ => some (2, 1, "RGBA")

/-! ## Helper lemmas -/

/-- Specification of the quality-descent loop: started at a quality of the
form `10 + 5 * k`, it returns the serialisation at the first quality
(descending in steps of 5) whose size meets the ceiling, or at quality 10
if none does; every higher multiple of 5 up to the start was attempted
and exceeded the ceiling. -/
theorem compress_loop_spec (encode : Encoder) (img : Img) (fmt : String)
    (tb : Nat) :
    ∀ k q, q = 10 + 5 * k →
    ∃ qf, compress_loop encode img fmt tb q = encode img fmt qf ∧
      10 ≤ qf ∧ qf ≤ q ∧ qf % 5 = 0 ∧
      ((encode img fmt qf).length ≤ tb ∨ qf = 10) ∧
      ∀ q2, qf < q2 → q2 ≤ q → q2 % 5 = 0 → tb < (encode img fmt q2).length := by
  intro k
  induction k with
  | zero =>
    intro q hq; subst hq
    refine ⟨10, ?_, le_refl _, le_refl _, by norm_num, Or.inr rfl, ?_⟩
    · rw [compress_loop, dif_pos (Or.inr (le_refl 10))]
    · intro q2 h1 h2 _; omega
  | succ n ih =>
    intro q hq
    by_cases hgood : (encode img fmt q).length ≤ tb
    · refine ⟨q, ?_, by omega, le_refl _, by omega, Or.inl hgood, ?_⟩
      · rw [compress_loop, dif_pos (Or.inl hgood)]
      · intro q2 h1 h2 _; omega
    · obtain ⟨qf, heq, h10, hle, hmod, hstop, hmin⟩ := ih (q - 5) (by omega)
      refine ⟨qf, ?_, h10, by omega, hmod, hstop, ?_⟩
      · rw [compress_loop, dif_neg (by push_neg; constructor <;> omega)]
        exact heq
      · intro q2 h1 h2 hm
        rcases Nat.lt_or_ge q2 q with hlt | hge
        · exact hmin q2 h1 (by omega) hm
        · have hq2 : q2 = q := by omega
          subst hq2; omega

/-- A multiple of 5 between 10 and 95 is on the quality ladder. -/
theorem mem_qualityLadder_of {q : Nat} (h1 : 10 ≤ q) (h2 : q ≤ 95)
    (h3 : q % 5 = 0) : q ∈ qualityLadder := by
  simp only [qualityLadder, List.mem_cons, List.not_mem_nil, or_false]
  omega

/-- Every quality on the ladder lies between 10 and 95 and is a multiple
of 5. -/
theorem qualityLadder_bounds : ∀ q ∈ qualityLadder, 10 ≤ q ∧ q ≤ 95 ∧ q % 5 = 0 := by
  decide

/-! ## C1 -/

/-- C1: for every pixel buffer, target format and size ceiling, the
size-constrained encoder serialises along the fixed descending ladder
95, 90, …, 10 and returns the serialisation at the first quality whose
byte size meets the ceiling, or the quality-10 serialisation once the
floor is reached; every strictly higher ladder quality was attempted and
exceeded the ceiling, the attempt count `(95 - q) / 5 + 1` is at most
18, and a result always exists (the function is total, so the search
always terminates and never fails, even when the final attempt still
exceeds the ceiling). -/
theorem c1_size_constrained_encoder (encode : Encoder) (img : Img)
    (target_size_kb : Nat) (image_format : String) :
    ∃ q ∈ qualityLadder,
      resize_and_compress_to_buffer encode img target_size_kb image_format =
        encode (flatten_for_format (normalize_format image_format) img)
          (normalize_format image_format) q ∧
      ((encode (flatten_for_format (normalize_format image_format) img)
          (normalize_format image_format) q).length ≤ target_size_kb * 1024 ∨
        q = 10) ∧
      (∀ q2 ∈ qualityLadder, q < q2 →
        target_size_kb * 1024 <
          (encode (flatten_for_format (normalize_format image_format) img)
            (normalize_format image_format) q2).length) ∧
      (95 - q) / 5 + 1 ≤ 18 := by
  obtain ⟨qf, heq, h10, hle, hmod, hstop, hmin⟩ :=
    compress_loop_spec encode
      (flatten_for_format (normalize_format image_format) img)
      (normalize_format image_format) (target_size_kb * 1024) 17 95 (by norm_num)
  refine ⟨qf, mem_qualityLadder_of h10 (by omega) hmod, heq, hstop, ?_, by omega⟩
  intro q2 hq2 hlt
  obtain ⟨_, hb2, hb3⟩ := qualityLadder_bounds q2 hq2
  exact hmin q2 hlt hb2 hb3

/-- With no watermark supplied the compositor returns the base unchanged
(line 28 of `apply_logo`). -/
theorem apply_logo_none (decode : Decoder) (base : Img) (op : ℚ) :
    apply_logo decode base none op = base := rfl

/-- The logo compositor never changes the base buffer's geometry or
color mode: it returns either the base unchanged or the base with a logo
pasted in place. -/
theorem apply_logo_geometry (decode : Decoder) (base : Img)
    (lb : Option Bytes) (op : ℚ) :
    (apply_logo decode base lb op).width = base.width ∧
    (apply_logo decode base lb op).height = base.height ∧
    (apply_logo decode base lb op).mode = base.mode := by
  cases lb with
  | none => exact ⟨rfl, rfl, rfl⟩
  | some b =>
    cases hd : decode b with
    | none => simp [apply_logo, hd]
    | some t =>
      obtain ⟨lw0, lh0, m⟩ := t
      by_cases h0 : lw0 = 0 ∨ lh0 = 0
      · simp [apply_logo, hd, h0]
      · simp [apply_logo, hd, h0, Img.width, Img.height, Img.mode]

/-- Flattening for a target format never changes the buffer's geometry. -/
theorem flatten_geometry (fmt : String) (img : Img) :
    (flatten_for_format fmt img).width = img.width ∧
    (flatten_for_format fmt img).height = img.height := by
  unfold flatten_for_format
  split <;> exact ⟨rfl, rfl⟩

/-- Flattening an RGBA buffer yields RGB exactly for a JPEG target and
leaves the buffer in RGBA otherwise. -/
theorem flatten_mode_rgba (fmt : String) (img : Img) (h : img.mode = "RGBA") :
    (flatten_for_format fmt img).mode = if fmt = "JPEG" then "RGB" else "RGBA" := by
  unfold flatten_for_format
  by_cases hf : fmt = "JPEG" <;> simp [hf, h, Img.mode]

/-! ## C7 -/

/-- C7: for every decodable input image and positive target geometry,
the normalised buffer measures exactly (width, height) in the
alpha-capable RGBA mode; the buffer handed to the size-constrained
encoder still measures exactly (width, height) in RGBA, and the buffer
the encoder actually serialises (after its format-specific flatten)
keeps those dimensions with a color mode compatible with the target:
RGB for a JPEG target, RGBA otherwise. -/
theorem c7_pipeline_geometry (decode : Decoder) (file_bytes : Bytes)
    (width height : Nat) (logo_bytes : Option Bytes) (opacity : ℚ)
    (image_format : String) (w0 h0 : Nat) (m0 : String)
    (_hw : 0 < width) (_hh : 0 < height)
    (hdec : decode file_bytes = some (w0, h0, m0)) :
    ∃ nimg img,
      normalized_image decode file_bytes width height = some nimg ∧
      nimg.width = width ∧ nimg.height = height ∧ nimg.mode = "RGBA" ∧
      pipeline_image decode file_bytes width height logo_bytes opacity =
        some img ∧
      img.width = width ∧ img.height = height ∧ img.mode = "RGBA" ∧
      (flatten_for_format (normalize_format (lowerStr image_format)) img).width =
        width ∧
      (flatten_for_format (normalize_format (lowerStr image_format)) img).height =
        height ∧
      (flatten_for_format (normalize_format (lowerStr image_format)) img).mode =
        (if normalize_format (lowerStr image_format) = "JPEG" then "RGB"
          else "RGBA") := by
  refine ⟨Img.resize
      (Img.convert (Img.decoded file_bytes w0 h0 m0) "RGBA") width height,
    apply_logo decode
      (Img.resize (Img.convert (Img.decoded file_bytes w0 h0 m0) "RGBA")
        width height) logo_bytes opacity, ?_, rfl, rfl, rfl, ?_, ?_⟩
  · unfold normalized_image
    rw [hdec]
    rfl
  · unfold pipeline_image normalized_image
    rw [hdec]
    rfl
  · obtain ⟨haw, hah, ham⟩ := apply_logo_geometry decode
      (Img.resize (Img.convert (Img.decoded file_bytes w0 h0 m0) "RGBA")
        width height) logo_bytes opacity
    obtain ⟨hfw, hfh⟩ := flatten_geometry (normalize_format (lowerStr image_format))
      (apply_logo decode
        (Img.resize (Img.convert (Img.decoded file_bytes w0 h0 m0) "RGBA")
          width height) logo_bytes opacity)
    exact ⟨haw, hah, ham, hfw.trans haw, hfh.trans hah,
      flatten_mode_rgba _ _ ham⟩

/-- C7 witness: a concrete decodable input at target geometry 4×3. -/
theorem c7_witness :
    0 < 4 ∧ 0 < 3 ∧ decodeAll [9] = some (1, 1, "RGB") ∧
    ∃ nimg img,
      normalized_image decodeAll [9] 4 3 = some nimg ∧
      nimg.width = 4 ∧ nimg.height = 3 ∧ nimg.mode = "RGBA" ∧
      pipeline_image decodeAll [9] 4 3 none 50 = some img ∧
      img.width = 4 ∧ img.height = 3 ∧ img.mode = "RGBA" ∧
      (flatten_for_format (normalize_format (lowerStr "jpg")) img).width = 4 ∧
      (flatten_for_format (normalize_format (lowerStr "jpg")) img).height = 3 ∧
      (flatten_for_format (normalize_format (lowerStr "jpg")) img).mode =
        (if normalize_format (lowerStr "jpg") = "JPEG" then "RGB" else "RGBA") :=
  ⟨by decide, by decide, rfl,
    c7_pipeline_geometry decodeAll [9] 4 3 none 50 "jpg" 1 1 "RGB"
      (by decide) (by decide) rfl⟩

/-! ## C9 -/

/-- C9: whenever the target format normalises to JPEG and the buffer
carries an alpha channel (RGBA), the encoder first flattens the buffer
to opaque RGB and then serialises that flattened buffer at some ladder
quality — so a transparent buffer sent to a JPEG target never fails and
the serialised buffer is opaque (mode RGB, no alpha channel). -/
theorem c9_jpeg_alpha_flatten (encode : Encoder) (img : Img)
    (target_size_kb : Nat) (image_format : String)
    (hfmt : normalize_format image_format = "JPEG")
    (hmode : img.mode = "RGBA") :
    flatten_for_format (normalize_format image_format) img =
      Img.convert img "RGB" ∧
    (Img.convert img "RGB").mode = "RGB" ∧
    ∃ q ∈ qualityLadder,
      resize_and_compress_to_buffer encode img target_size_kb image_format =
        encode (Img.convert img "RGB") "JPEG" q := by
  have hflat : flatten_for_format (normalize_format image_format) img =
      Img.convert img "RGB" := by
    unfold flatten_for_format
    rw [if_pos ⟨hfmt, hmode⟩]
  refine ⟨hflat, rfl, ?_⟩
  obtain ⟨qf, heq, h10, hle, hmod, hstop, hmin⟩ :=
    compress_loop_spec encode
      (flatten_for_format (normalize_format image_format) img)
      (normalize_format image_format) (target_size_kb * 1024) 17 95 (by norm_num)
  refine ⟨qf, mem_qualityLadder_of h10 (by omega) hmod, ?_⟩
  unfold resize_and_compress_to_buffer
  rw [heq, hflat, hfmt]

/-- C9 witness: a concrete RGBA buffer with the `jpg` target format. -/
theorem c9_witness :
    normalize_format "jpg" = "JPEG" ∧
    (Img.convert (Img.decoded [4] 2 2 "P") "RGBA").mode = "RGBA" ∧
    (flatten_for_format (normalize_format "jpg")
        (Img.convert (Img.decoded [4] 2 2 "P") "RGBA") =
      Img.convert (Img.convert (Img.decoded [4] 2 2 "P") "RGBA") "RGB" ∧
    (Img.convert (Img.convert (Img.decoded [4] 2 2 "P") "RGBA") "RGB").mode =
      "RGB" ∧
    ∃ q ∈ qualityLadder,
      resize_and_compress_to_buffer encodeEmpty
          (Img.convert (Img.decoded [4] 2 2 "P") "RGBA") 50 "jpg" =
        encodeEmpty
          (Img.convert (Img.convert (Img.decoded [4] 2 2 "P") "RGBA") "RGB")
          "JPEG" q) :=
  ⟨by decide, rfl,
    c9_jpeg_alpha_flatten encodeEmpty
      (Img.convert (Img.decoded [4] 2 2 "P") "RGBA") 50 "jpg" (by decide) rfl⟩

/-! ## C3 -/

/-- C3: a corrupt (undecodable) watermark is swallowed: `apply_logo`
returns the base buffer unmodified for every base, and the full
single-image pipeline's output with the corrupt watermark supplied
equals its output with no watermark supplied at all. -/
theorem c3_corrupt_watermark (decode : Decoder) (encode : Encoder)
    (file_bytes : Bytes) (width height : Nat) (lb : Bytes) (opacity : ℚ)
    (target_size_kb : Nat) (image_format : String)
    (hlb : decode lb = none) :
    (∀ base : Img, apply_logo decode base (some lb) opacity = base) ∧
    process_single_image decode encode file_bytes width height (some lb)
        opacity target_size_kb image_format =
      process_single_image decode encode file_bytes width height none
        opacity target_size_kb image_format := by
  have hbase : ∀ base : Img, apply_logo decode base (some lb) opacity = base := by
    intro base
    simp [apply_logo, hlb]
  refine ⟨hbase, ?_⟩
  cases hf : decode file_bytes with
  | none =>
    simp [process_single_image, pipeline_image, normalized_image, hf]
  | some d =>
    simp [process_single_image, pipeline_image, normalized_image, hf, hbase,
      apply_logo_none]

/-- C3 witness: every byte string is corrupt for `decodeNone`, so the
pipeline with a watermark supplied equals the pipeline without one. -/
theorem c3_witness :
    decodeNone [7] = none ∧
    process_single_image decodeNone encodeEmpty [5] 2 2 (some [7]) 50 100
        "webp" =
      process_single_image decodeNone encodeEmpty [5] 2 2 none 50 100
        "webp" :=
  ⟨rfl, (c3_corrupt_watermark decodeNone encodeEmpty [5] 2 2 [7] 50 100
    "webp" rfl).2⟩

/-! ## C2 -/

/-- C2 counterexample: on an archive yielding zero image entries the
batch block does warn, but it does not terminate without producing an
OutputArchive — the output zip buffer was already opened before the
emptiness check and lines 170–179 still run, so an (empty) output
archive is sealed, a success message is shown, and the archive is
offered for download.  This refutes the claim that no OutputArchive is
produced. -/
theorem c2_counterexample :
    (runBatch decodeAll encodeEmpty 1 1 none 50 100 "webp" archEmpty).warnedEmpty
        = true ∧
    (runBatch decodeAll encodeEmpty 1 1 none 50 100 "webp" archEmpty).successShown
        = true ∧
    (runBatch decodeAll encodeEmpty 1 1 none 50 100 "webp"
        archEmpty).downloadOffered = true ∧
    (runBatch decodeAll encodeEmpty 1 1 none 50 100 "webp"
        archEmpty).outputEntries = [] ∧
    ¬ (runBatch decodeAll encodeEmpty 1 1 none 50 100 "webp"
        archEmpty).downloadOffered = false :=
  ⟨rfl, rfl, rfl, rfl, by decide⟩

/-- C2 (amended): for every batch run whose materialised work list is
empty, the empty-input warning fires and the per-entry loop is skipped
(no entry is written and nothing is recorded as skipped), but the batch
still seals an empty OutputArchive, reports success, and offers the
empty archive for download. -/
theorem c2_empty_batch (decode : Decoder) (encode : Encoder)
    (width height : Nat) (logo_bytes : Option Bytes) (opacity : ℚ)
    (target_size_kb : Nat) (image_format : String) (a : UploadedArchive)
    (hempty : extract_files_from_archive a = []) :
    runBatch decode encode width height logo_bytes opacity target_size_kb
        image_format a =
      { warnedEmpty := true, outputEntries := [], skipped := [],
        successShown := true, downloadOffered := true } := by
  unfold runBatch
  rw [hempty]
  rfl

/-- C2 witness: the concrete empty archive reaches the amended outcome. -/
theorem c2_witness :
    extract_files_from_archive archEmpty = [] ∧
    runBatch decodeAll encodeEmpty 2 2 none 50 100 "png" archEmpty =
      { warnedEmpty := true, outputEntries := [], skipped := [],
        successShown := true, downloadOffered := true } :=
  ⟨rfl, c2_empty_batch decodeAll encodeEmpty 2 2 none 50 100 "png" archEmpty rfl⟩

/-! ## C4 -/

/-- Counting lemma for the batch loop: the entries kept by `filterMap`
and the entries whose processing returned nothing partition the work
list. -/
theorem length_filterMap_add_countP {α β : Type} (f : α → Option β)
    (l : List α) :
    (l.filterMap f).length + l.countP (fun a => (f a).isNone) = l.length := by
  induction l with
  | nil => rfl
  | cons a t ih =>
    cases hf : f a <;>
      simp [List.filterMap_cons, hf, List.countP_cons, ← ih] <;> omega

/-- A batch entry is written by `process_entry` exactly when it does not
fail. -/
theorem process_entry_isNone (decode : Decoder) (encode : Encoder)
    (width height : Nat) (logo_bytes : Option Bytes) (opacity : ℚ)
    (target_size_kb : Nat) (image_format : String) (e : String × Bytes) :
    (process_entry decode encode width height logo_bytes opacity
        target_size_kb image_format e).isNone =
      entry_fails decode encode width height logo_bytes opacity
        target_size_kb image_format e := by
  unfold process_entry entry_fails
  cases process_single_image decode encode e.2 width height logo_bytes
    opacity target_size_kb image_format <;> rfl

/-- C4: in every batch run, the written output entries and the failing
entries partition the work list, so the output archive holds at most as
many entries as the extractor yielded, strictly fewer as soon as one
entry fails, and exactly (total − 1) when exactly one entry fails; every
failing entry is recorded on the skip list (by name, in order) and
contributes nothing to the output archive. -/
theorem c4_batch_failure_isolation (decode : Decoder) (encode : Encoder)
    (width height : Nat) (logo_bytes : Option Bytes) (opacity : ℚ)
    (target_size_kb : Nat) (image_format : String) (a : UploadedArchive) :
    (runBatch decode encode width height logo_bytes opacity target_size_kb
          image_format a).outputEntries.length +
        (extract_files_from_archive a).countP
          (entry_fails decode encode width height logo_bytes opacity
            target_size_kb image_format) =
      (extract_files_from_archive a).length ∧
    (runBatch decode encode width height logo_bytes opacity target_size_kb
        image_format a).outputEntries.length ≤
      (extract_files_from_archive a).length ∧
    ((∃ e ∈ extract_files_from_archive a,
        entry_fails decode encode width height logo_bytes opacity
          target_size_kb image_format e = true) →
      (runBatch decode encode width height logo_bytes opacity target_size_kb
          image_format a).outputEntries.length <
        (extract_files_from_archive a).length) ∧
    ((extract_files_from_archive a).countP
        (entry_fails decode encode width height logo_bytes opacity
          target_size_kb image_format) = 1 →
      (runBatch decode encode width height logo_bytes opacity target_size_kb
          image_format a).outputEntries.length =
        (extract_files_from_archive a).length - 1) ∧
    (runBatch decode encode width height logo_bytes opacity target_size_kb
        image_format a).skipped =
      ((extract_files_from_archive a).filter
        (entry_fails decode encode width height logo_bytes opacity
          target_size_kb image_format)).map Prod.fst := by
  have hcount :
      (runBatch decode encode width height logo_bytes opacity target_size_kb
            image_format a).outputEntries.length +
          (extract_files_from_archive a).countP
            (entry_fails decode encode width height logo_bytes opacity
              target_size_kb image_format) =
        (extract_files_from_archive a).length := by
    unfold runBatch
    by_cases hz : (extract_files_from_archive a).length = 0
    · rw [if_pos hz]
      have : extract_files_from_archive a = [] := List.length_eq_zero.mp hz
      simp [this]
    · rw [if_neg hz]
      have hc : (extract_files_from_archive a).countP
            (fun e => (process_entry decode encode width height logo_bytes
              opacity target_size_kb image_format e).isNone) =
          (extract_files_from_archive a).countP
            (entry_fails decode encode width height logo_bytes opacity
              target_size_kb image_format) :=
        List.countP_congr fun e _ => by
          rw [process_entry_isNone decode encode width height logo_bytes
            opacity target_size_kb image_format e]
      rw [← hc]
      exact length_filterMap_add_countP _ _
  have hskip :
      (runBatch decode encode width height logo_bytes opacity target_size_kb
          image_format a).skipped =
        ((extract_files_from_archive a).filter
          (entry_fails decode encode width height logo_bytes opacity
            target_size_kb image_format)).map Prod.fst := by
    unfold runBatch
    by_cases hz : (extract_files_from_archive a).length = 0
    · rw [if_pos hz]
      have : extract_files_from_archive a = [] := List.length_eq_zero.mp hz
      simp [this]
    · rw [if_neg hz]
  refine ⟨hcount, by omega, ?_, by omega, hskip⟩
  intro hex
  have hpos : 0 < (extract_files_from_archive a).countP
      (entry_fails decode encode width height logo_bytes opacity
        target_size_kb image_format) := List.countP_pos_iff.mpr hex
  omega

/-- C4 witness: with one corrupt entry among three, the batch output
holds exactly two entries and the corrupt entry is recorded. -/
theorem c4_witness :
    (∃ e ∈ extract_files_from_archive archMixed,
        entry_fails decodeBut0 encodeEmpty 1 1 none 50 100 "webp" e = true) ∧
    (extract_files_from_archive archMixed).countP
        (entry_fails decodeBut0 encodeEmpty 1 1 none 50 100 "webp") = 1 ∧
    (runBatch decodeBut0 encodeEmpty 1 1 none 50 100 "webp"
        archMixed).outputEntries.length =
      (extract_files_from_archive archMixed).length - 1 := by
  refine ⟨by decide, by decide, ?_⟩
  exact (c4_batch_failure_isolation decodeBut0 encodeEmpty 1 1 none 50 100
    "webp" archMixed).2.2.2.1 (by decide)

/-! ## C5 -/

/-- C5 counterexample: with the `jpg` abbreviation supplied, the
single-image pipeline returns the format string `jpg` — the lower-cased
input — not the canonical JPEG name, refuting the claim that the
returned format string is the canonical JPEG name. -/
theorem c5_counterexample :
    (process_single_image decodeAll encodeEmpty [1] 1 1 none 50 100
        "jpg").map Prod.snd = some "jpg" ∧
    ¬ (process_single_image decodeAll encodeEmpty [1] 1 1 none 50 100
        "jpg").map Prod.snd = some "jpeg" ∧
    ¬ (process_single_image decodeAll encodeEmpty [1] 1 1 none 50 100
        "jpg").map Prod.snd = some "JPEG" := by
  refine ⟨by decide, by decide, by decide⟩

/-- C5 (amended): for every decodable input the single-image pipeline
returns the lower-cased supplied format string alongside the encoded
bytes (so `jpg` is returned as `jpg`); the abbreviation is normalised to
the canonical JPEG name only inside the encoder, and at the call site
the MIME/content-type is derived from the returned string with `jpg`
special-cased to `image/jpeg`. -/
theorem c5_format_string (decode : Decoder) (encode : Encoder)
    (file_bytes : Bytes) (width height : Nat) (logo_bytes : Option Bytes)
    (opacity : ℚ) (target_size_kb : Nat) (image_format : String)
    (d : Nat × Nat × String) (hdec : decode file_bytes = some d) :
    (process_single_image decode encode file_bytes width height logo_bytes
        opacity target_size_kb image_format).map Prod.snd =
      some (lowerStr image_format) ∧
    normalize_format (lowerStr "jpg") = "JPEG" ∧
    mime_type "jpg" = "image/jpeg" ∧
    mime_type "webp" = "image/webp" ∧ mime_type "png" = "image/png" := by
  refine ⟨?_, by decide, by decide, by decide, by decide⟩
  unfold process_single_image pipeline_image normalized_image
  rw [hdec]
  rfl

/-- C5 witness: a concrete decodable input with the `jpg` format. -/
theorem c5_witness :
    decodeAll [2] = some (1, 1, "RGB") ∧
    (process_single_image decodeAll encodeEmpty [2] 3 3 none 50 100
        "jpg").map Prod.snd = some (lowerStr "jpg") :=
  ⟨rfl, (c5_format_string decodeAll encodeEmpty [2] 3 3 none 50 100 "jpg"
    (1, 1, "RGB") rfl).1⟩

/-! ## C6 -/

/-- C6: for every archive whose declared name selects one of the two
container kinds, the extractor yields exactly the image-named entries of
the container — every entry whose lower-cased name ends in one of the
four recognised extensions and no other — in the container's native
iteration order (the output is the order-preserving filter of the entry
list), and the number of yielded pairs equals the number of image-named
entries. -/
theorem c6_extractor_filter (a : UploadedArchive)
    (ha : endsWithStr (lowerStr a.name) ".zip" = true ∨
      endsWithStr (lowerStr a.name) ".7z" = true) :
    extract_files_from_archive a =
      a.entries.filter (fun e => is_image_name e.1) ∧
    (extract_files_from_archive a).length =
      a.entries.countP (fun e => is_image_name e.1) := by
  have key : extract_files_from_archive a =
      a.entries.filter (fun e => is_image_name e.1) := by
    unfold extract_files_from_archive
    rcases ha with h | h
    · rw [if_pos h]
    · by_cases hz : endsWithStr (lowerStr a.name) ".zip" = true
      · rw [if_pos hz]
      · rw [if_neg hz, if_pos h]
        cases he : a.entries.isEmpty
        · rfl
        · rw [if_pos rfl]
          rw [List.isEmpty_iff.mp he]
          rfl
  refine ⟨key, ?_⟩
  rw [key, List.countP_eq_length_filter]

/-- C6 witness: a zip-named archive with three image entries (one in a
subdirectory, one upper-cased) and one non-image entry yields exactly
the three image entries in order. -/
theorem c6_witness :
    (endsWithStr (lowerStr "Photos.ZIP") ".zip" = true ∨
      endsWithStr (lowerStr "Photos.ZIP") ".7z" = true) ∧
    (extract_files_from_archive
        { name := "Photos.ZIP",
          entries := [("a.png", [1]), ("notes.txt", [2]), ("B.JPG", [3]),
            ("deep/c.webp", [4])] }).length =
      ([("a.png", ([1] : Bytes)), ("notes.txt", [2]), ("B.JPG", [3]),
        ("deep/c.webp", [4])].countP fun e => is_image_name e.1) :=
  ⟨Or.inl (by decide),
    (c6_extractor_filter
      { name := "Photos.ZIP",
        entries := [("a.png", [1]), ("notes.txt", [2]), ("B.JPG", [3]),
          ("deep/c.webp", [4])] } (Or.inl (by decide))).2⟩

/-! ## C10 -/

/-- C10: for every uploaded archive whose declared name ends
(case-insensitively) in neither `.zip` nor `.7z`, the extractor matches
neither container branch and yields the empty sequence — it is a total
function there, raising no error. -/
theorem c10_unknown_container (a : UploadedArchive)
    (h1 : endsWithStr (lowerStr a.name) ".zip" = false)
    (h2 : endsWithStr (lowerStr a.name) ".7z" = false) :
    extract_files_from_archive a = [] := by
  unfold extract_files_from_archive
  rw [if_neg (by rw [h1]; exact Bool.false_ne_true),
    if_neg (by rw [h2]; exact Bool.false_ne_true)]

/-- C10 witness: a `.rar`-named archive yields nothing even though its
container lists an image entry. -/
theorem c10_witness :
    endsWithStr (lowerStr "images.rar") ".zip" = false ∧
    endsWithStr (lowerStr "images.rar") ".7z" = false ∧
    extract_files_from_archive
        { name := "images.rar", entries := [("a.png", [1])] } = [] :=
  ⟨by decide, by decide,
    c10_unknown_container { name := "images.rar", entries := [("a.png", [1])] }
      (by decide) (by decide)⟩

/-! ## C8 -/

/-- Floor-of-square-root bridge: for naturals `a` and `b > 0`, the floor
of the real `√(a / b)` is computed exactly by `Nat.sqrt (a * b) / b`. -/
theorem nat_sqrt_mul_div_eq_floor (a b : Nat) (hb : 0 < b) :
    Nat.sqrt (a * b) / b = ⌊Real.sqrt ((a : ℝ) / (b : ℝ))⌋₊ := by
  have hbR : (0 : ℝ) < (b : ℝ) := by exact_mod_cast hb
  have h1 : ((a : ℝ) / b) = ((a * b : Nat) : ℝ) / ((b : ℝ) * b) := by
    push_cast
    field_simp
    ring
  rw [h1, Real.sqrt_div' _ (by positivity), Real.sqrt_mul_self hbR.le,
    Nat.floor_div_nat, Real.nat_floor_real_sqrt_eq_nat_sqrt]

/-- Floor-of-ratio bridge: dividing a natural `w` by the aspect ratio
`lw0 / lh0` and flooring is computed exactly by `w * lh0 / lw0`. -/
theorem nat_mul_div_eq_floor_aspect (w lw0 lh0 : Nat) (hw : 0 < lw0)
    (hh : 0 < lh0) :
    w * lh0 / lw0 = ⌊(w : ℝ) / ((lw0 : ℝ) / (lh0 : ℝ))⌋₊ := by
  have h1 : (w : ℝ) / ((lw0 : ℝ) / (lh0 : ℝ)) =
      ((w * lh0 : Nat) : ℝ) / ((lw0 : Nat) : ℝ) := by
    have hw' : ((lw0 : ℝ)) ≠ 0 := by positivity
    have hh' : ((lh0 : ℝ)) ≠ 0 := by positivity
    push_cast
    field_simp
  rw [h1, Nat.floor_div_nat, Nat.floor_natCast]

/-- The embedded watermark width computation equals the spec formula
`⌊√(0.6 · base_area · (lw0 / lh0))⌋` over the reals. -/
theorem logo_scaled_width_eq_spec (base_img : Img) (lw0 lh0 : Nat)
    (hh : 0 < lh0) :
    logo_scaled_width base_img lw0 lh0 =
      spec_logo_width (base_img.width * base_img.height) lw0 lh0 := by
  unfold logo_scaled_width spec_logo_width
  rw [nat_sqrt_mul_div_eq_floor (3 * (base_img.width * base_img.height) * lw0)
    (5 * lh0) (by omega)]
  have harg : ((0.6 : ℝ) * (base_img.width * base_img.height : Nat)) *
      ((lw0 : ℝ) / (lh0 : ℝ)) =
      ((3 * (base_img.width * base_img.height) * lw0 : Nat) : ℝ) /
        ((5 * lh0 : Nat) : ℝ) := by
    have hh' : ((lh0 : ℝ)) ≠ 0 := by positivity
    rw [show (0.6 : ℝ) = 3 / 5 by norm_num]
    push_cast
    field_simp
  rw [harg]

/-- The embedded watermark height computation equals the spec formula
`⌊logo_width / (lw0 / lh0)⌋` over the reals. -/
theorem logo_scaled_height_eq_spec (base_img : Img) (lw0 lh0 : Nat)
    (hw : 0 < lw0) (hh : 0 < lh0) :
    logo_scaled_height base_img lw0 lh0 =
      spec_logo_height (logo_scaled_width base_img lw0 lh0) lw0 lh0 := by
  unfold logo_scaled_height spec_logo_height
  exact nat_mul_div_eq_floor_aspect _ lw0 lh0 hw hh

/-- C8: for every base image and decodable watermark, the compositor
pastes onto the base an alpha-adjusted copy of the watermark resized to
the dimensions given by the spec formulas — width `⌊√(area · aspect)⌋`
for a target area of 60% of the base pixel area and height
`⌊width / aspect⌋` — at offset `((base_w − logo_w) // 2,
(base_h − logo_h) // 2)`, and the pasted region's doubled centre
coordinate differs from the base's by at most 1, i.e. the centres agree
to integer rounding in both axes, for any aspect ratio. -/
theorem c8_watermark_centering (decode : Decoder) (base : Img) (lb : Bytes)
    (op : ℚ) (lw0 lh0 : Nat) (lmode : String)
    (hdec : decode lb = some (lw0, lh0, lmode)) (hw : 0 < lw0)
    (hh : 0 < lh0) :
    ∃ logo : Img,
      apply_logo decode base (some lb) op =
        Img.pasted base logo
          (((base.width : Int) - (logo_scaled_width base lw0 lh0 : Int)) / 2)
          (((base.height : Int) - (logo_scaled_height base lw0 lh0 : Int)) / 2) ∧
      logo.width = logo_scaled_width base lw0 lh0 ∧
      logo.height = logo_scaled_height base lw0 lh0 ∧
      logo_scaled_width base lw0 lh0 =
        spec_logo_width (base.width * base.height) lw0 lh0 ∧
      logo_scaled_height base lw0 lh0 =
        spec_logo_height (logo_scaled_width base lw0 lh0) lw0 lh0 ∧
      (2 * (((base.width : Int) - (logo_scaled_width base lw0 lh0 : Int)) / 2) +
          (logo_scaled_width base lw0 lh0 : Int) -
          (base.width : Int)).natAbs ≤ 1 ∧
      (2 * (((base.height : Int) -
            (logo_scaled_height base lw0 lh0 : Int)) / 2) +
          (logo_scaled_height base lw0 lh0 : Int) -
          (base.height : Int)).natAbs ≤ 1 := by
  have hwne : lw0 ≠ 0 := by omega
  have hhne : lh0 ≠ 0 := by omega
  refine ⟨Img.alphaScaled
      (Img.resize (Img.convert (Img.decoded lb lw0 lh0 lmode) "RGBA")
        (logo_scaled_width base lw0 lh0) (logo_scaled_height base lw0 lh0))
      (min (max (op / 100) 0) 1),
    ?_, rfl, rfl, logo_scaled_width_eq_spec base lw0 lh0 hh,
    logo_scaled_height_eq_spec base lw0 lh0 hw hh, by omega, by omega⟩
  simp [apply_logo, hdec, hwne, hhne]

/-- C8 witness: a concrete 2×1 watermark on a concrete 10×10 base. -/
theorem c8_witness :
    decodeLogo21 [7] = some (2, 1, "RGBA") ∧ 0 < 2 ∧ 0 < 1 ∧
    ∃ logo : Img,
      apply_logo decodeLogo21 (Img.decoded [3] 10 10 "RGBA") (some [7]) 50 =
        Img.pasted (Img.decoded [3] 10 10 "RGBA") logo
          ((((Img.decoded [3] 10 10 "RGBA").width : Int) -
            (logo_scaled_width (Img.decoded [3] 10 10 "RGBA") 2 1 : Int)) / 2)
          ((((Img.decoded [3] 10 10 "RGBA").height : Int) -
            (logo_scaled_height (Img.decoded [3] 10 10 "RGBA") 2 1 : Int)) / 2) ∧
      logo.width = logo_scaled_width (Img.decoded [3] 10 10 "RGBA") 2 1 ∧
      logo.height = logo_scaled_height (Img.decoded [3] 10 10 "RGBA") 2 1 ∧
      logo_scaled_width (Img.decoded [3] 10 10 "RGBA") 2 1 =
        spec_logo_width ((Img.decoded [3] 10 10 "RGBA").width *
          (Img.decoded [3] 10 10 "RGBA").height) 2 1 ∧
      logo_scaled_height (Img.decoded [3] 10 10 "RGBA") 2 1 =
        spec_logo_height (logo_scaled_width (Img.decoded [3] 10 10 "RGBA") 2 1)
          2 1 ∧
      (2 * ((((Img.decoded [3] 10 10 "RGBA").width : Int) -
            (logo_scaled_width (Img.decoded [3] 10 10 "RGBA") 2 1 : Int)) / 2) +
          (logo_scaled_width (Img.decoded [3] 10 10 "RGBA") 2 1 : Int) -
          ((Img.decoded [3] 10 10 "RGBA").width : Int)).natAbs ≤ 1 ∧
      (2 * ((((Img.decoded [3] 10 10 "RGBA").height : Int) -
            (logo_scaled_height (Img.decoded [3] 10 10 "RGBA") 2 1 : Int)) / 2) +
          (logo_scaled_height (Img.decoded [3] 10 10 "RGBA") 2 1 : Int) -
          ((Img.decoded [3] 10 10 "RGBA").height : Int)).natAbs ≤ 1 :=
  ⟨rfl, by decide, by decide,
    c8_watermark_centering decodeLogo21 (Img.decoded [3] 10 10 "RGBA") [7] 50
      2 1 "RGBA" rfl (by decide) (by decide)⟩
